import Mathlib

/-!
Verification development for the VideoMarkUp snapshot lifecycle subsystem.

The definitions below are a shallow embedding of the JavaScript source:
  - the Storage module (IndexedDB via Dexie, `storage.js`, schema version 2):
    projects / snapshots collections with auto-increment ids;
  - the SnapshotManager module (`snapshot-manager.js`): timestamp-tolerant
    snapshot lookup, snapshot creation, inline-edit collection and the
    300 ms debounced auto-save;
  - the DrawingTool module (`drawing-tool.js`): canvas resize behaviour.

Video timestamps, wall-clock times and hour estimates are modelled as
rationals; image blobs, comments and scene documents are opaque strings.
JavaScript `new Date()` values are passed in explicitly as a `now` argument.
-/

/-- JavaScript `[...new Set(l)]`: removes duplicates keeping the first
occurrence of each element, preserving order. -/
def jsSetDedup (l : List String) : List String :=
  l.foldl (fun acc t => if t ∈ acc then acc else acc ++ [t]) []

/-- A persisted Project record (`storage.js` version-2 schema). -/
structure Project where
  id : Nat
  name : String
  videoFileName : String
  videoData : String
  createdAt : ℚ
  lastEditedAt : ℚ
deriving DecidableEq

/-- A persisted Snapshot record (`storage.js` version-2 schema). -/
structure Snapshot where
  id : Nat
  projectId : Nat
  timestamp : ℚ
  originalImage : String
  markedUpImage : Option String
  fabricData : Option String
  comment : String
  tags : List String
  tagHours : List (String × ℚ)
  createdAt : ℚ
deriving DecidableEq

/-- The IndexedDB database state: both collections plus the auto-increment
counters Dexie maintains for the `++id` primary keys. Record order in the
lists is insertion order (ascending primary key). -/
structure DB where
  projects : List Project
  snapshots : List Snapshot
  nextProjectId : Nat
  nextSnapshotId : Nat
deriving DecidableEq

/-- Auto-increment well-formedness: every stored snapshot id is below the
next id Dexie will assign. Holds for every database built through the
Storage API. -/
def DB.SnapIdsFresh (db : DB) : Prop :=
  ∀ r ∈ db.snapshots, r.id < db.nextSnapshotId

/-- The object literal handed to `Storage.addSnapshot`. -/
structure NewSnapshot where
  projectId : Nat
  timestamp : ℚ
  originalImage : String
  markedUpImage : Option String
  fabricData : Option String
  comment : String
  tags : List String
  tagHours : List (String × ℚ)
deriving DecidableEq

/-- Field set accepted by `Storage.updateSnapshot`; `none` means the field
is absent from the `updates` object (not written). These are exactly the
fields the repository ever passes to `updateSnapshot`. -/
structure SnapshotUpdates where
  comment : Option String
  tags : Option (List String)
  tagHours : Option (List (String × ℚ))
  fabricData : Option (Option String)
  markedUpImage : Option (Option String)
deriving DecidableEq

/-- Dexie `Table.update`: merge the provided fields into the record. -/
def applyUpdates (u : SnapshotUpdates) (s : Snapshot) : Snapshot :=
  { s with
    comment := u.comment.getD s.comment
    tags := u.tags.getD s.tags
    tagHours := u.tagHours.getD s.tagHours
    fabricData := u.fabricData.getD s.fabricData
    markedUpImage := u.markedUpImage.getD s.markedUpImage }

/-- Raw Dexie `db.snapshots.get(id)`: primary-key lookup, no tag cleanup. -/
def dbGetSnapshot (db : DB) (id : Nat) : Option Snapshot :=
  db.snapshots.find? (fun s => s.id = id)

/-- Raw Dexie `db.projects.get(id)`. -/
def dbGetProject (db : DB) (pid : Nat) : Option Project :=
  db.projects.find? (fun p => p.id = pid)

/-- Dexie `db.projects.update(pid, \x7b lastEditedAt: now \x7d)`: sets only the
`lastEditedAt` field of the matching project; no-op when absent. -/
def Storage.touchProject (db : DB) (pid : Nat) (now : ℚ) : DB :=
  { db with projects :=
      db.projects.map fun p => if p.id = pid then { p with lastEditedAt := now } else p }

/-- `Storage.createProject`: add a project with both timestamps set. -/
def Storage.createProject (db : DB) (name fileName data : String) (now : ℚ) : DB × Nat :=
  let p : Project :=
    { id := db.nextProjectId, name := name, videoFileName := fileName
      videoData := data, createdAt := now, lastEditedAt := now }
  ({ db with projects := db.projects ++ [p], nextProjectId := db.nextProjectId + 1 }, p.id)

/-- `Storage.getProject`. -/
def Storage.getProject (db : DB) (pid : Nat) : Option Project :=
  dbGetProject db pid

/-- The record `Storage.addSnapshot` inserts: tags deduplicated, omitted
fields defaulted, `createdAt` stamped, id from the auto-increment counter. -/
def Storage.newSnapshotRecord (db : DB) (s : NewSnapshot) (now : ℚ) : Snapshot :=
  { id := db.nextSnapshotId, projectId := s.projectId, timestamp := s.timestamp
    originalImage := s.originalImage, markedUpImage := s.markedUpImage
    fabricData := s.fabricData, comment := s.comment
    tags := jsSetDedup s.tags, tagHours := s.tagHours, createdAt := now }

/-- `Storage.addSnapshot`: deduplicate tags, insert the record, then update
the owning project's `lastEditedAt` when `projectId` is truthy. Returns the
new id. -/
def Storage.addSnapshot (db : DB) (s : NewSnapshot) (now : ℚ) : DB × Nat :=
  let r := Storage.newSnapshotRecord db s now
  let db1 : DB :=
    { db with snapshots := db.snapshots ++ [r], nextSnapshotId := db.nextSnapshotId + 1 }
  let db2 := if s.projectId ≠ 0 then Storage.touchProject db1 s.projectId now else db1
  (db2, r.id)

/-- Defensive per-record tag deduplication applied by the read paths. -/
def dedupSnapTags (s : Snapshot) : Snapshot :=
  { s with tags := jsSetDedup s.tags }

/-- `Storage.getSnapshots`: records of the project sorted ascending by
timestamp (Dexie `where('projectId').equals(pid).sortBy('timestamp')`,
a stable sort over ascending-primary-key order), tags deduplicated. -/
def Storage.getSnapshots (db : DB) (pid : Nat) : List Snapshot :=
  (List.insertionSort (fun a b => a.timestamp ≤ b.timestamp)
    (db.snapshots.filter (fun s => s.projectId = pid))).map dedupSnapTags

/-- `Storage.getSnapshot`: primary-key lookup with tag deduplication. -/
def Storage.getSnapshot (db : DB) (id : Nat) : Option Snapshot :=
  (dbGetSnapshot db id).map dedupSnapTags

/-- `Storage.updateSnapshot`: deduplicate `updates.tags` when provided,
merge the fields into the record, then re-fetch the record and update the
owning project's `lastEditedAt` when its `projectId` is truthy. -/
def Storage.updateSnapshot (db : DB) (id : Nat) (u : SnapshotUpdates) (now : ℚ) : DB :=
  let u1 : SnapshotUpdates := { u with tags := u.tags.map jsSetDedup }
  let db1 : DB :=
    { db with snapshots :=
        db.snapshots.map fun s => if s.id = id then applyUpdates u1 s else s }
  match dbGetSnapshot db1 id with
  | some s => if s.projectId ≠ 0 then Storage.touchProject db1 s.projectId now else db1
  | none => db1

/-- `Storage.deleteSnapshot`: fetch the record first, delete it, then update
the owning project's `lastEditedAt` when its `projectId` is truthy. -/
def Storage.deleteSnapshot (db : DB) (id : Nat) (now : ℚ) : DB :=
  let pre := dbGetSnapshot db id
  let db1 : DB := { db with snapshots := db.snapshots.filter (fun s => ¬ s.id = id) }
  match pre with
  | some s => if s.projectId ≠ 0 then Storage.touchProject db1 s.projectId now else db1
  | none => db1

/-- `Storage.deleteProject`: one read-write transaction deleting every
snapshot whose `projectId` equals the given id and then the project itself;
modelled as a single atomic state transition. -/
def Storage.deleteProject (db : DB) (pid : Nat) : DB :=
  { db with
    snapshots := db.snapshots.filter (fun s => ¬ s.projectId = pid)
    projects := db.projects.filter (fun p => ¬ p.id = pid) }

/-- `SnapshotManager.findSnapshotAtTime`: first snapshot of the project
(in ascending-timestamp order) whose timestamp lies within 0.1 s of the
requested time. -/
def SnapshotManager.findSnapshotAtTime (db : DB) (pid : Nat) (t : ℚ) : Option Snapshot :=
  (Storage.getSnapshots db pid).find? (fun s => decide (|s.timestamp - t| < 1/10))

/-- The ensure-snapshot-at-timestamp flow run by a markup-triggering action
when no snapshot is active (`handleCommentInput` lines 330-347 and
`DrawingTool.ensureSnapshotExists`): reuse the snapshot found within
tolerance, otherwise capture and persist a new empty one. Returns the
updated database and the id that becomes active. -/
def SnapshotManager.ensureSnapshotAt (db : DB) (pid : Nat) (t : ℚ)
    (frame comment : String) (now : ℚ) : DB × Nat :=
  match SnapshotManager.findSnapshotAtTime db pid t with
  | some s => (db, s.id)
  | none =>
      Storage.addSnapshot db
        { projectId := pid, timestamp := t, originalImage := frame
          markedUpImage := none, fabricData := none, comment := comment
          tags := [], tagHours := [] } now

/-- One tag row of the inline tags/hours panel: the tag identifier, whether
its button has the `active` class, and the numeric value its hours input
parses to (`none` for a blank or non-numeric input, mirroring
`parseFloat` returning `NaN`). -/
structure PanelEntry where
  tag : String
  active : Bool
  hours : Option ℚ
deriving DecidableEq

/-- Tags collected by the snapshot-creation call sites (tag click, hours
typing, hours blur): the tags whose buttons are active, in panel order. -/
def SnapshotManager.collectInitialTags (panel : List PanelEntry) : List String :=
  (panel.filter (fun e => e.active)).map (fun e => e.tag)

/-- Hours collected by the snapshot-creation call sites: every hours input
that parses to a positive number is kept, whether or not its tag button is
active. -/
def SnapshotManager.collectInitialTagHours (panel : List PanelEntry) : List (String × ℚ) :=
  panel.filterMap fun e =>
    match e.hours with
    | some v => if 0 < v then some (e.tag, v) else none
    | none => none

/-- Tags collected by `saveInlineEdit`: active tag buttons, pushed with an
explicit duplicate check. -/
def SnapshotManager.collectActiveTags (panel : List PanelEntry) : List String :=
  jsSetDedup (SnapshotManager.collectInitialTags panel)

/-- Hours collected by `saveInlineEdit`: an hours input is persisted only
when its value parses to a positive number and its tag is in the collected
active-tag list. -/
def SnapshotManager.collectTagHours (panel : List PanelEntry) (tags : List String) :
    List (String × ℚ) :=
  panel.filterMap fun e =>
    match e.hours with
    | some v => if e.tag ∈ tags ∧ 0 < v then some (e.tag, v) else none
    | none => none

/-- Outcome of `SnapshotManager.captureSnapshotWithComment`. -/
structure CaptureResult where
  db : DB
  pausedAfter : Bool
  toastShown : Bool
  snapshotId : Option Nat
deriving DecidableEq

/-- `SnapshotManager.captureSnapshotWithComment`: when no project is loaded
it shows an error toast and creates nothing; otherwise it pauses the video
unconditionally, captures the current frame, and persists a new snapshot
via `Storage.addSnapshot` (which deduplicates the tags again). The video's
playing state never causes a rejection. -/
def SnapshotManager.captureSnapshotWithComment (db : DB) (currentProjectId : Option Nat)
    (paused : Bool) (t : ℚ) (frame comment : String)
    (initialTags : List String) (initialTagHours : List (String × ℚ)) (now : ℚ) :
    CaptureResult :=
  match currentProjectId with
  | none => { db := db, pausedAfter := paused, toastShown := true, snapshotId := none }
  | some pid =>
      let r := Storage.addSnapshot db
        { projectId := pid, timestamp := t, originalImage := frame
          markedUpImage := none, fabricData := none, comment := comment
          tags := jsSetDedup initialTags, tagHours := initialTagHours } now
      { db := r.1, pausedAfter := true, toastShown := false, snapshotId := some r.2 }

/-- The inline tag-click creation path (`setupEventListeners` lines
112-141): with no active snapshot it pauses the video if needed, collects
the panel's active tags and all positive hours values, and captures a
snapshot carrying them. -/
def SnapshotManager.tagClickCreateSnapshot (db : DB) (currentProjectId : Option Nat)
    (paused : Bool) (panel : List PanelEntry) (t : ℚ) (frame : String) (now : ℚ) :
    CaptureResult :=
  SnapshotManager.captureSnapshotWithComment db currentProjectId paused t frame ""
    (SnapshotManager.collectInitialTags panel)
    (SnapshotManager.collectInitialTagHours panel) now

/-- The update object `saveInlineEdit` builds from the inline panels. -/
def SnapshotManager.panelUpdates (panel : List PanelEntry) (comment : String)
    (fabricUpd markedUpUpd : Option (Option String)) : SnapshotUpdates :=
  let tags := SnapshotManager.collectActiveTags panel
  { comment := some comment, tags := some tags
    tagHours := some (SnapshotManager.collectTagHours panel tags)
    fabricData := fabricUpd, markedUpImage := markedUpUpd }

/-- Outcome of one `saveInlineEdit` call: the resulting database, how many
`Storage.updateSnapshot` write attempts were issued, whether a user-visible
error notification was raised, and whether the inline panels were
cleared. -/
structure SaveResult where
  db : DB
  attempts : Nat
  notified : Bool
  panelsCleared : Bool
deriving DecidableEq

/-- `SnapshotManager.saveInlineEdit`: validate the id, fetch the snapshot,
collect comment, active tags and their positive hours from the panels, and
issue exactly one `Storage.updateSnapshot` write. `fabricUpd` and
`markedUpUpd` stand for the drawing-scene document and regenerated
composite image of the fabric-data branch, whose contents are opaque here.
A write failure (store unavailable) is not retried: the awaited rejection
propagates out of the call, surfacing as a toast only through the global
unhandled-rejection handler of `error-handler.js`; the panels keep their
state. On success the panels are cleared only for a non-silent save. -/
def SnapshotManager.saveInlineEdit (db : DB) (storeAvailable : Bool)
    (snapshotId : Option Nat) (panel : List PanelEntry) (comment : String)
    (fabricUpd markedUpUpd : Option (Option String)) (silent : Bool) (now : ℚ) :
    SaveResult :=
  match snapshotId with
  | none => { db := db, attempts := 0, notified := false, panelsCleared := false }
  | some id =>
      match Storage.getSnapshot db id with
      | none => { db := db, attempts := 0, notified := false, panelsCleared := false }
      | some _ =>
          if storeAvailable then
            { db := Storage.updateSnapshot db id
                (SnapshotManager.panelUpdates panel comment fabricUpd markedUpUpd) now
              attempts := 1, notified := false, panelsCleared := !silent }
          else
            { db := db, attempts := 1, notified := true, panelsCleared := false }

/-- A shape of the drawing scene graph, with absolute canvas coordinates
(fabric.js object `left`/`top` plus its bounding size). -/
structure Shape where
  left : ℚ
  top : ℚ
  width : ℚ
  height : ℚ
deriving DecidableEq

/-- The drawing canvas: display dimensions plus the scene graph. -/
structure Canvas where
  width : ℚ
  height : ℚ
  shapes : List Shape
deriving DecidableEq

/-- Modelled from the spec: the Drawing Surface collaborator's scene-graph
serialization (`canvas.toJSON()`). The library stores each object's
absolute coordinates. -/
def DrawingTool.canvasToJSON (c : Canvas) : List Shape :=
  c.shapes

/-- Modelled from the spec: the Drawing Surface collaborator's
deserialization (`canvas.loadFromJSON(json)`): restores exactly the
serialized scene graph, at its stored absolute coordinates; the library
applies no rescaling to fit new canvas dimensions. -/
def DrawingTool.loadFromJSON (c : Canvas) (json : List Shape) : Canvas :=
  { c with shapes := json }

/-- `DrawingTool.resizeCanvas`: when the display size changed by more than
2 px on either axis, serialize the scene, set the new canvas dimensions,
and reload the serialized scene. -/
def DrawingTool.resizeCanvas (c : Canvas) (newW newH : ℚ) : Canvas :=
  if 2 < |c.width - newW| ∨ 2 < |c.height - newH| then
    let json := DrawingTool.canvasToJSON c
    DrawingTool.loadFromJSON { c with width := newW, height := newH } json
  else c

/-- An event of an inline-editing session. `edit t a` is a user edit at
time `t` (seconds) leaving the inline panels in state `a`; it runs
`triggerAutoSave(false)`. `exitEditing t` is `exitInlineEditMode` at time
`t` (also reached when playback resumes). -/
inductive EditorEvent (α : Type) where
  | edit (t : ℚ) (a : α)
  | exitEditing (t : ℚ)
deriving DecidableEq

/-- The single-threaded editing-session state: the active snapshot id, the
current panel (DOM) state, the scheduled fire time of `autoSaveTimeout`
(if any), and the writes persisted so far, each as
(time, snapshot id, panel state written). -/
structure EditorState (α : Type) where
  currentSnapshotId : Option Nat
  ui : α
  pendingFire : Option ℚ
  writes : List (ℚ × Nat × α)
deriving DecidableEq

/-- The body of the scheduled `doSave` callback: it reads
`currentSnapshotId` and the panels at fire time; with no active snapshot
the save is discarded by the invalid-id guard of `saveInlineEdit`. -/
def firePending (s : EditorState α) (f : ℚ) : EditorState α :=
  match s.currentSnapshotId with
  | some id => { s with pendingFire := none, writes := s.writes ++ [(f, id, s.ui)] }
  | none => { s with pendingFire := none }

/-- Run the timer callback if its deadline has passed by time `t`
(the event loop runs a due timeout before a later user event). -/
def fireDue (s : EditorState α) (t : ℚ) : EditorState α :=
  match s.pendingFire with
  | some f => if f ≤ t then firePending s f else s
  | none => s

/-- One step of the session. An edit updates the DOM and, when a snapshot
is active, `triggerAutoSave(false)` clears any pending timeout and
schedules `doSave` 300 ms (3/10 s) later; with no active snapshot the
guard at the top of `triggerAutoSave` does nothing. `exitInlineEditMode`
clears the active snapshot id; it neither cancels the pending timeout nor
flushes it. -/
def editorStep (s : EditorState α) (e : EditorEvent α) : EditorState α :=
  match e with
  | .edit t a =>
      let s1 := fireDue s t
      let s2 := { s1 with ui := a }
      match s2.currentSnapshotId with
      | some _ => { s2 with pendingFire := some (t + 3/10) }
      | none => s2
  | .exitEditing t =>
      let s1 := fireDue s t
      { s1 with currentSnapshotId := none }

/-- After the last event, let any remaining timeout fire at its scheduled
time. -/
def editorFinalize (s : EditorState α) : EditorState α :=
  match s.pendingFire with
  | some f => firePending s f
  | none => s

/-- Run a whole editing session on snapshot `sid` with initial panel state
`a0`. -/
def editorRun (sid : Nat) (a0 : α) (events : List (EditorEvent α)) : EditorState α :=
  editorFinalize (events.foldl editorStep
    { currentSnapshotId := some sid, ui := a0, pendingFire := none, writes := [] })

/-- Two consecutive session timestamps within the 300 ms debounce window. -/
def withinDebounce (p q : ℚ × α) : Prop :=
  p.1 ≤ q.1 ∧ q.1 - p.1 < 3/10

instance : ∀ (p q : ℚ × α), Decidable (withinDebounce p q) := by
  intro p q
  unfold withinDebounce
  infer_instance

/-- A project whose store already holds one snapshot at timestamp 0
(id 1); the auto-increment counter will assign id 2 next. -/
def dbTol : DB :=
  { projects := [{ id := 1, name := "Demo", videoFileName := "v.mp4", videoData := "blob"
                   createdAt := 0, lastEditedAt := 0 }]
    snapshots := [{ id := 1, projectId := 1, timestamp := 0, originalImage := "i0"
                    markedUpImage := none, fabricData := none, comment := ""
                    tags := [], tagHours := [], createdAt := 0 }]
    nextProjectId := 2, nextSnapshotId := 2 }

/-- The inline panel state of the C7 counterexample: the hours input of
tag "vfx" still holds 3 while its button is inactive, and tag "roto" is
active with no hours. This state is reachable: typing hours activates and
saves, toggling the tag off saves without clearing the hours input, and
`exitInlineEditMode` leaves the panels as they are. -/
def panelStray : List PanelEntry :=
  [{ tag := "vfx", active := false, hours := some 3 },
   { tag := "roto", active := true, hours := none }]

theorem jsSetDedup_loop_invariant (l : List String) (acc : List String) (h : acc.Nodup) :
    (l.foldl (fun acc t => if t ∈ acc then acc else acc ++ [t]) acc).Nodup := by
  induction l generalizing acc with
  | nil => simpa using h
  | cons x xs ih =>
      simp only [List.foldl_cons]
      by_cases hx : x ∈ acc
      · simpa [hx] using ih acc h
      · have : (acc ++ [x]).Nodup := by
          simp [List.nodup_append, h, hx]
        simpa [hx] using ih (acc ++ [x]) this

theorem jsSetDedup_nodup (l : List String) : (jsSetDedup l).Nodup :=
  jsSetDedup_loop_invariant l [] List.nodup_nil

theorem jsSetDedup_loop_mem (l : List String) (acc : List String) (x : String) :
    x ∈ l.foldl (fun acc t => if t ∈ acc then acc else acc ++ [t]) acc ↔ x ∈ acc ∨ x ∈ l := by
  induction l generalizing acc with
  | nil => simp
  | cons y ys ih =>
      simp only [List.foldl_cons]
      by_cases hy : y ∈ acc
      · rw [if_pos hy, ih]
        constructor
        · rintro (h | h)
          · exact Or.inl h
          · exact Or.inr (List.mem_cons_of_mem _ h)
        · rintro (h | h)
          · exact Or.inl h
          · rcases List.mem_cons.mp h with rfl | h
            · exact Or.inl hy
            · exact Or.inr h
      · rw [if_neg hy, ih]
        simp only [List.mem_append, List.mem_singleton, List.mem_cons]
        tauto

theorem mem_jsSetDedup (l : List String) (x : String) : x ∈ jsSetDedup l ↔ x ∈ l := by
  unfold jsSetDedup
  rw [jsSetDedup_loop_mem]
  simp

theorem find_eq_of_unique {α : Type} (p : α → Bool) (l : List α) (a : α)
    (ha : a ∈ l) (hpa : p a = true) (huniq : ∀ b ∈ l, p b = true → b = a) :
    l.find? p = some a := by
  induction l with
  | nil => cases ha
  | cons x xs ih =>
      by_cases hx : p x = true
      · have hxa : x = a := huniq x (List.mem_cons_self x xs) hx
        subst hxa
        simp [List.find?, hpa]
      · have hx' : p x = false := Bool.eq_false_iff.mpr hx
        have ha' : a ∈ xs := by
          rcases List.mem_cons.mp ha with rfl | h
          · exact absurd hpa hx
          · exact h
        simp only [List.find?, hx']
        exact ih ha' (fun b hb hpb => huniq b (List.mem_cons_of_mem x hb) hpb)

theorem find_map_of_pres {α : Type} (p : α → Bool) (f : α → α) (l : List α)
    (hf : ∀ x, p (f x) = p x) :
    (l.map f).find? p = (l.find? p).map f := by
  induction l with
  | nil => rfl
  | cons x xs ih =>
      by_cases hx : p x = true
      · simp [List.find?, hf, hx]
      · have hx' : p x = false := Bool.eq_false_iff.mpr hx
        simp [List.find?, hf, hx', ih]

theorem addSnapshot_snapshots (db : DB) (s : NewSnapshot) (now : ℚ) :
    (Storage.addSnapshot db s now).1.snapshots
      = db.snapshots ++ [Storage.newSnapshotRecord db s now] := by
  unfold Storage.addSnapshot
  by_cases h : s.projectId ≠ 0 <;> simp [h, Storage.touchProject]

theorem addSnapshot_id (db : DB) (s : NewSnapshot) (now : ℚ) :
    (Storage.addSnapshot db s now).2 = db.nextSnapshotId := by
  unfold Storage.addSnapshot Storage.newSnapshotRecord
  by_cases h : s.projectId ≠ 0 <;> simp [h]

theorem addSnapshot_projects (db : DB) (s : NewSnapshot) (now : ℚ) (h : s.projectId ≠ 0) :
    (Storage.addSnapshot db s now).1.projects
      = db.projects.map fun p =>
          if p.id = s.projectId then { p with lastEditedAt := now } else p := by
  unfold Storage.addSnapshot
  simp [h, Storage.touchProject]

theorem mem_getSnapshots_iff (db : DB) (pid : Nat) (x : Snapshot) :
    x ∈ Storage.getSnapshots db pid
      ↔ ∃ r ∈ db.snapshots, r.projectId = pid ∧ x = dedupSnapTags r := by
  unfold Storage.getSnapshots
  rw [List.mem_map]
  constructor
  · rintro ⟨r, hr, rfl⟩
    have hr2 : r ∈ db.snapshots.filter (fun s => s.projectId = pid) :=
      (List.perm_insertionSort _ _).mem_iff.mp hr
    rcases List.mem_filter.mp hr2 with ⟨hmem, hpid⟩
    exact ⟨r, hmem, by simpa using hpid, rfl⟩
  · rintro ⟨r, hmem, hpid, rfl⟩
    refine ⟨r, ?_, rfl⟩
    exact (List.perm_insertionSort _ _).mem_iff.mpr
      (List.mem_filter.mpr ⟨hmem, by simpa using hpid⟩)

/-- Claim C4: deleting a project removes, in one atomic transaction, the
project record and every snapshot owned by it: afterwards the snapshot
list of that project is empty, the project is gone, and the whole effect
is the single simultaneous state transition on the two tables. -/
theorem deleteProject_cascades (db : DB) (pid : Nat) :
    Storage.getSnapshots (Storage.deleteProject db pid) pid = []
      ∧ Storage.getProject (Storage.deleteProject db pid) pid = none
      ∧ Storage.deleteProject db pid
          = { db with
                snapshots := db.snapshots.filter (fun s => ¬ s.projectId = pid)
                projects := db.projects.filter (fun p => ¬ p.id = pid) } := by
  refine ⟨?_, ?_, rfl⟩
  · unfold Storage.getSnapshots Storage.deleteProject
    have h : (db.snapshots.filter (fun s => ¬ s.projectId = pid)).filter
        (fun s => s.projectId = pid) = [] := by
      apply List.filter_eq_nil_iff.mpr
      intro a ha
      have := (List.mem_filter.mp ha).2
      simpa using this
    simp [h]
  · unfold Storage.getProject Storage.deleteProject dbGetProject
    apply List.find?_eq_none.mpr
    intro p hp
    have := (List.mem_filter.mp hp).2
    simpa using this

theorem dbGetSnapshot_addSnapshot (db : DB) (ns : NewSnapshot) (now : ℚ)
    (hfresh : db.SnapIdsFresh) :
    dbGetSnapshot (Storage.addSnapshot db ns now).1 (Storage.addSnapshot db ns now).2
      = some (Storage.newSnapshotRecord db ns now) := by
  rw [addSnapshot_id]
  unfold dbGetSnapshot
  rw [addSnapshot_snapshots, List.find?_append]
  have hnone : db.snapshots.find? (fun s => s.id = db.nextSnapshotId) = none := by
    apply List.find?_eq_none.mpr
    intro r hr
    have := hfresh r hr
    simp only [decide_eq_true_eq]
    omega
  have hnew : (Storage.newSnapshotRecord db ns now).id = db.nextSnapshotId := rfl
  simp [hnone, List.find?, hnew]

theorem updateSnapshot_snapshots (db : DB) (id : Nat) (u : SnapshotUpdates) (now : ℚ) :
    (Storage.updateSnapshot db id u now).snapshots
      = db.snapshots.map fun s =>
          if s.id = id then applyUpdates { u with tags := u.tags.map jsSetDedup } s else s := by
  unfold Storage.updateSnapshot
  cases h : dbGetSnapshot
      { db with snapshots :=
          db.snapshots.map fun s =>
            if s.id = id then applyUpdates { u with tags := u.tags.map jsSetDedup } s else s }
      id with
  | none => simp [h]
  | some s => by_cases hp : s.projectId ≠ 0 <;> simp [h, hp, Storage.touchProject]

theorem applyUpdates_id (u : SnapshotUpdates) (s : Snapshot) :
    (applyUpdates u s).id = s.id := rfl

theorem applyUpdates_projectId (u : SnapshotUpdates) (s : Snapshot) :
    (applyUpdates u s).projectId = s.projectId := rfl

theorem dbGetSnapshot_map_update (snaps : List Snapshot) (id : Nat)
    (f : Snapshot → Snapshot) (hf : ∀ s, (f s).id = s.id) :
    (snaps.map fun s => if s.id = id then f s else s).find? (fun s => s.id = id)
      = (snaps.find? (fun s => s.id = id)).map fun s => if s.id = id then f s else s := by
  apply find_map_of_pres
  intro x
  by_cases hx : x.id = id <;> simp [hx, hf]

theorem dbGetSnapshot_updateSnapshot (db : DB) (id : Nat) (u : SnapshotUpdates) (now : ℚ)
    (s0 : Snapshot) (h : dbGetSnapshot db id = some s0) :
    dbGetSnapshot (Storage.updateSnapshot db id u now) id
      = some (applyUpdates { u with tags := u.tags.map jsSetDedup } s0) := by
  have hid : s0.id = id := by
    have := List.find?_some h
    simpa using this
  unfold dbGetSnapshot
  rw [updateSnapshot_snapshots,
    dbGetSnapshot_map_update db.snapshots id _ (fun s => applyUpdates_id _ s)]
  unfold dbGetSnapshot at h
  rw [h]
  simp [hid]

/-- Claim C9: snapshot records coming out of the store have duplicate-free
tags: `getSnapshot` and `getSnapshots` deduplicate on read, the record
inserted by `addSnapshot` is stored with deduplicated tags, and
`updateSnapshot` deduplicates a provided tags field before writing —
regardless of duplicates in the input. -/
theorem snapshot_tags_nodup :
    (∀ db id s, Storage.getSnapshot db id = some s → s.tags.Nodup)
  ∧ (∀ db pid s, s ∈ Storage.getSnapshots db pid → s.tags.Nodup)
  ∧ (∀ db ns now s, db.SnapIdsFresh →
        dbGetSnapshot (Storage.addSnapshot db ns now).1 (Storage.addSnapshot db ns now).2
          = some s → s.tags.Nodup)
  ∧ (∀ db id u now s, u.tags ≠ none →
        dbGetSnapshot (Storage.updateSnapshot db id u now) id = some s →
        s.tags.Nodup) := by
  refine ⟨?_, ?_, ?_, ?_⟩
  · intro db id s h
    unfold Storage.getSnapshot at h
    rcases Option.map_eq_some'.mp h with ⟨r, _, rfl⟩
    exact jsSetDedup_nodup r.tags
  · intro db pid s h
    rcases (mem_getSnapshots_iff db pid s).mp h with ⟨r, _, _, rfl⟩
    exact jsSetDedup_nodup r.tags
  · intro db ns now s hfresh h
    rw [dbGetSnapshot_addSnapshot db ns now hfresh] at h
    cases h
    exact jsSetDedup_nodup ns.tags
  · intro db id u now s htags h
    rcases Option.ne_none_iff_exists'.mp htags with ⟨l, hl⟩
    cases hdb : dbGetSnapshot db id with
    | none =>
        unfold dbGetSnapshot at hdb h
        rw [updateSnapshot_snapshots,
          dbGetSnapshot_map_update db.snapshots id _ (fun s => applyUpdates_id _ s),
          hdb] at h
        cases h
    | some s0 =>
        rw [dbGetSnapshot_updateSnapshot db id u now s0 hdb] at h
        cases h
        simp [applyUpdates, hl]
        exact jsSetDedup_nodup l

/-- Closed witness for claim C9 at a concrete store: adding a snapshot
whose input tags repeat gives a stored record with duplicate-free tags. -/
theorem snapshot_tags_nodup_witness :
    ({ id := 1, projectId := 1, timestamp := 2, originalImage := "img"
       markedUpImage := none, fabricData := none, comment := ""
       tags := ["vfx"], tagHours := [], createdAt := 5 } : Snapshot).tags.Nodup :=
  snapshot_tags_nodup.2.2.1
    { projects := [], snapshots := [], nextProjectId := 1, nextSnapshotId := 1 }
    { projectId := 1, timestamp := 2, originalImage := "img", markedUpImage := none
      fabricData := none, comment := "", tags := ["vfx", "vfx"], tagHours := [] }
    5 _ (by intro r hr; cases hr) (by decide)

theorem find_touch (ps : List Project) (pid : Nat) (now : ℚ) (p0 : Project)
    (h : ps.find? (fun p => p.id = pid) = some p0) :
    (ps.map fun p => if p.id = pid then { p with lastEditedAt := now } else p).find?
        (fun p => p.id = pid) = some { p0 with lastEditedAt := now } := by
  have hpres : ∀ x : Project,
      (fun p : Project => decide (p.id = pid))
          (if x.id = pid then { x with lastEditedAt := now } else x)
        = (fun p : Project => decide (p.id = pid)) x := by
    intro x
    by_cases hx : x.id = pid <;> simp [hx]
  rw [find_map_of_pres _ _ _ hpres, h]
  have hid : p0.id = pid := by
    have := List.find?_some h
    simpa using this
  simp [hid]

theorem updateSnapshot_projects_aux (db : DB) (id : Nat) (u : SnapshotUpdates) (now : ℚ)
    (s0 : Snapshot) (hs : dbGetSnapshot db id = some s0) (hp : s0.projectId ≠ 0) :
    (Storage.updateSnapshot db id u now).projects
      = db.projects.map fun p =>
          if p.id = s0.projectId then { p with lastEditedAt := now } else p := by
  have hid : s0.id = id := by
    have := List.find?_some hs
    simpa using this
  have h1 : dbGetSnapshot
      { db with snapshots :=
          db.snapshots.map fun s =>
            if s.id = id then applyUpdates { u with tags := u.tags.map jsSetDedup } s else s }
      id = some (applyUpdates { u with tags := u.tags.map jsSetDedup } s0) := by
    show (db.snapshots.map fun s =>
        if s.id = id then applyUpdates { u with tags := u.tags.map jsSetDedup } s else s).find?
          (fun s => s.id = id)
      = some (applyUpdates { u with tags := u.tags.map jsSetDedup } s0)
    rw [dbGetSnapshot_map_update db.snapshots id _ (fun s => applyUpdates_id _ s)]
    unfold dbGetSnapshot at hs
    rw [hs]
    simp [hid]
  simp only [Storage.updateSnapshot]
  rw [h1]
  have hproj : (applyUpdates { u with tags := u.tags.map jsSetDedup } s0).projectId
      = s0.projectId := applyUpdates_projectId _ s0
  simp only [hproj]
  simp [hp, Storage.touchProject]

theorem deleteSnapshot_projects_aux (db : DB) (id : Nat) (now : ℚ) (s0 : Snapshot)
    (h : dbGetSnapshot db id = some s0) (hp : s0.projectId ≠ 0) :
    (Storage.deleteSnapshot db id now).projects
      = db.projects.map fun p =>
          if p.id = s0.projectId then { p with lastEditedAt := now } else p := by
  unfold Storage.deleteSnapshot
  rw [h]
  simp [hp, Storage.touchProject]

/-- Claim C10: each snapshot mutation on a snapshot with a valid owning
project (the project exists in the store and the id is truthy) rewrites
that project record with `lastEditedAt` set to the mutation time and every
other field unchanged — for `addSnapshot`, `updateSnapshot` and
`deleteSnapshot`. -/
theorem mutations_touch_project :
    (∀ db ns now p0, ns.projectId ≠ 0 →
        Storage.getProject db ns.projectId = some p0 →
        Storage.getProject (Storage.addSnapshot db ns now).1 ns.projectId
          = some { p0 with lastEditedAt := now })
  ∧ (∀ db id u now s0 p0, dbGetSnapshot db id = some s0 → s0.projectId ≠ 0 →
        Storage.getProject db s0.projectId = some p0 →
        Storage.getProject (Storage.updateSnapshot db id u now) s0.projectId
          = some { p0 with lastEditedAt := now })
  ∧ (∀ db id now s0 p0, dbGetSnapshot db id = some s0 → s0.projectId ≠ 0 →
        Storage.getProject db s0.projectId = some p0 →
        Storage.getProject (Storage.deleteSnapshot db id now) s0.projectId
          = some { p0 with lastEditedAt := now }) := by
  refine ⟨?_, ?_, ?_⟩
  · intro db ns now p0 hpid h
    unfold Storage.getProject dbGetProject at *
    rw [addSnapshot_projects db ns now hpid]
    exact find_touch db.projects ns.projectId now p0 h
  · intro db id u now s0 p0 hs hpid h
    unfold Storage.getProject dbGetProject at *
    rw [updateSnapshot_projects_aux db id u now s0 hs hpid]
    exact find_touch db.projects s0.projectId now p0 h
  · intro db id now s0 p0 hs hpid h
    unfold Storage.getProject dbGetProject at *
    rw [deleteSnapshot_projects_aux db id now s0 hs hpid]
    exact find_touch db.projects s0.projectId now p0 h

/-- Counterexample to claim C1: with a pre-existing snapshot at timestamp
0, triggering snapshot creation at t1 = 1/10 really creates a new snapshot
(id 2, since nothing lies within 0.1 s of t1), yet triggering again at
t2 = 1/20 — within 0.1 s of t1 — yields id 1, the older stored snapshot,
not the id just created: the lookup returns the first snapshot within
tolerance in ascending-timestamp order. -/
theorem ensure_tolerance_counterexample :
    |(1:ℚ)/10 - 1/20| < 1/10
      ∧ SnapshotManager.findSnapshotAtTime dbTol 1 (1/10) = none
      ∧ (SnapshotManager.ensureSnapshotAt dbTol 1 (1/10) "f1" "" 5).2 = 2
      ∧ (SnapshotManager.ensureSnapshotAt
            (SnapshotManager.ensureSnapshotAt dbTol 1 (1/10) "f1" "" 5).1
            1 (1/20) "f2" "" 6).2 = 1
      ∧ (1 : Nat) ≠ 2 := by
  have h1 : |(1:ℚ)/10| = 1/10 := abs_of_pos (by norm_num)
  have h2 : |(1:ℚ)/20| = 1/20 := abs_of_pos (by norm_num)
  refine ⟨by rw [show (1:ℚ)/10 - 1/20 = 1/20 by norm_num, h2]; norm_num, ?_, ?_, ?_, by decide⟩
  · norm_num [SnapshotManager.findSnapshotAtTime, Storage.getSnapshots, dbTol,
      List.insertionSort, List.orderedInsert, dedupSnapTags, jsSetDedup, List.find?, h1]
  · norm_num [SnapshotManager.ensureSnapshotAt, SnapshotManager.findSnapshotAtTime,
      Storage.getSnapshots, dbTol, List.insertionSort, List.orderedInsert, dedupSnapTags,
      jsSetDedup, List.find?, h1, Storage.addSnapshot, Storage.newSnapshotRecord,
      Storage.touchProject]
  · norm_num [SnapshotManager.ensureSnapshotAt, SnapshotManager.findSnapshotAtTime,
      Storage.getSnapshots, dbTol, List.insertionSort, List.orderedInsert, dedupSnapTags,
      jsSetDedup, List.find?, h1, h2, Storage.addSnapshot, Storage.newSnapshotRecord,
      Storage.touchProject]

theorem dedupSnapTags_timestamp (s : Snapshot) : (dedupSnapTags s).timestamp = s.timestamp :=
  rfl

theorem dedupSnapTags_projectId (s : Snapshot) : (dedupSnapTags s).projectId = s.projectId :=
  rfl

theorem ensureSnapshotAt_of_found (db : DB) (pid : Nat) (t : ℚ) (f c : String) (now : ℚ)
    (s : Snapshot) (h : SnapshotManager.findSnapshotAtTime db pid t = some s) :
    SnapshotManager.ensureSnapshotAt db pid t f c now = (db, s.id) := by
  unfold SnapshotManager.ensureSnapshotAt
  rw [h]

theorem ensureSnapshotAt_of_missing (db : DB) (pid : Nat) (t : ℚ) (f c : String) (now : ℚ)
    (h : SnapshotManager.findSnapshotAtTime db pid t = none) :
    SnapshotManager.ensureSnapshotAt db pid t f c now
      = Storage.addSnapshot db
          { projectId := pid, timestamp := t, originalImage := f
            markedUpImage := none, fabricData := none, comment := c
            tags := [], tagHours := [] } now := by
  unfold SnapshotManager.ensureSnapshotAt
  rw [h]

/-- Claim C1 amended: triggering snapshot creation at `t2` within 0.1 s of
a snapshot created at `t1` performs no store write (no duplicate) and
returns the id of the first stored snapshot within tolerance of `t2` in
ascending-timestamp order; when the snapshot created at `t1` is the only
one within 0.1 s of `t2`, that is the same id the first trigger returned. -/
theorem ensure_tolerance_same_id (db : DB) (pid : Nat) (t1 t2 : ℚ)
    (f1 c1 f2 c2 : String) (n1 n2 : ℚ)
    (h12 : |t1 - t2| < 1/10)
    (hnew : SnapshotManager.findSnapshotAtTime db pid t1 = none)
    (hno : ∀ s ∈ Storage.getSnapshots db pid, ¬ |s.timestamp - t2| < 1/10) :
    (SnapshotManager.ensureSnapshotAt
        (SnapshotManager.ensureSnapshotAt db pid t1 f1 c1 n1).1 pid t2 f2 c2 n2).1
      = (SnapshotManager.ensureSnapshotAt db pid t1 f1 c1 n1).1
    ∧ (SnapshotManager.ensureSnapshotAt
        (SnapshotManager.ensureSnapshotAt db pid t1 f1 c1 n1).1 pid t2 f2 c2 n2).2
      = (SnapshotManager.ensureSnapshotAt db pid t1 f1 c1 n1).2 := by
  set ns : NewSnapshot :=
    { projectId := pid, timestamp := t1, originalImage := f1
      markedUpImage := none, fabricData := none, comment := c1
      tags := [], tagHours := [] } with hns
  have hrun : SnapshotManager.ensureSnapshotAt db pid t1 f1 c1 n1
      = Storage.addSnapshot db ns n1 :=
    ensureSnapshotAt_of_missing db pid t1 f1 c1 n1 hnew
  set newR : Snapshot := Storage.newSnapshotRecord db ns n1 with hnewR
  have hfound : SnapshotManager.findSnapshotAtTime (Storage.addSnapshot db ns n1).1 pid t2
      = some (dedupSnapTags newR) := by
    unfold SnapshotManager.findSnapshotAtTime
    apply find_eq_of_unique
    · apply (mem_getSnapshots_iff _ pid _).mpr
      refine ⟨newR, ?_, rfl, rfl⟩
      rw [addSnapshot_snapshots]
      simp
    · simp only [decide_eq_true_eq, dedupSnapTags_timestamp]
      show |t1 - t2| < 1/10
      exact h12
    · intro b hb hpb
      rcases (mem_getSnapshots_iff _ pid b).mp hb with ⟨r, hr, hrpid, rfl⟩
      rw [addSnapshot_snapshots] at hr
      rcases List.mem_append.mp hr with hold | hnewmem
      · exfalso
        have hmem : dedupSnapTags r ∈ Storage.getSnapshots db pid :=
          (mem_getSnapshots_iff db pid _).mpr ⟨r, hold, hrpid, rfl⟩
        have := hno _ hmem
        simp only [decide_eq_true_eq] at hpb
        exact this hpb
      · have : r = newR := by simpa using hnewmem
        rw [this]
  have hsecond :
      SnapshotManager.ensureSnapshotAt (Storage.addSnapshot db ns n1).1 pid t2 f2 c2 n2
        = ((Storage.addSnapshot db ns n1).1, (dedupSnapTags newR).id) :=
    ensureSnapshotAt_of_found _ pid t2 f2 c2 n2 _ hfound
  rw [hrun, hsecond]
  constructor
  · rfl
  · show (dedupSnapTags newR).id = (Storage.addSnapshot db ns n1).2
    rw [addSnapshot_id]
    rfl

/-- Closed witness for the amended claim C1: on an empty store the second
trigger within tolerance returns the id created by the first and leaves
the database unchanged. -/
theorem ensure_tolerance_same_id_witness :
    (SnapshotManager.ensureSnapshotAt
        (SnapshotManager.ensureSnapshotAt
          { projects := [], snapshots := [], nextProjectId := 1, nextSnapshotId := 1 }
          1 1 "f1" "" 5).1 1 (21/20) "f2" "" 6).2
      = (SnapshotManager.ensureSnapshotAt
          { projects := [], snapshots := [], nextProjectId := 1, nextSnapshotId := 1 }
          1 1 "f1" "" 5).2 :=
  (ensure_tolerance_same_id
    { projects := [], snapshots := [], nextProjectId := 1, nextSnapshotId := 1 }
    1 1 (21/20) "f1" "" "f2" "" 5 6
    (by rw [show (1:ℚ) - 21/20 = -(1/20) by norm_num, abs_neg]
        rw [abs_of_pos (show (0:ℚ) < 1/20 by norm_num)]
        norm_num)
    (by rfl)
    (by intro s hs; simp [Storage.getSnapshots] at hs)).2

theorem editorRun_edits_aux {α : Type} (sid : Nat) (t : ℚ) (a : α)
    (w : List (ℚ × Nat × α)) (es : List (ℚ × α))
    (hchain : List.Chain' withinDebounce ((t, a) :: es)) :
    es.foldl (fun s e => editorStep s (EditorEvent.edit e.1 e.2))
        { currentSnapshotId := some sid, ui := a, pendingFire := some (t + 3/10), writes := w }
      = { currentSnapshotId := some sid
          ui := (((t, a) :: es).getLast (List.cons_ne_nil _ _)).2
          pendingFire := some ((((t, a) :: es).getLast (List.cons_ne_nil _ _)).1 + 3/10)
          writes := w } := by
  induction es generalizing t a with
  | nil => simp [List.getLast]
  | cons e rest ih =>
      obtain ⟨t2, a2⟩ := e
      have hgap : withinDebounce (t, a) (t2, a2) := (List.chain'_cons.mp hchain).1
      have hch2 : List.Chain' withinDebounce ((t2, a2) :: rest) :=
        (List.chain'_cons.mp hchain).2
      have hnotdue : ¬ (t + 3/10 ≤ t2) := by
        rcases hgap with ⟨hle, hlt⟩
        simp only [not_le]
        linarith
      have hstep : editorStep
          { currentSnapshotId := some sid, ui := a, pendingFire := some (t + 3/10)
            writes := w }
          (EditorEvent.edit t2 a2)
        = { currentSnapshotId := some sid, ui := a2, pendingFire := some (t2 + 3/10)
            writes := w } := by
        simp [editorStep, fireDue, hnotdue]
      simp only [List.foldl_cons, hstep, ih t2 a2 hch2]
      have hlast : ((t, a) :: (t2, a2) :: rest).getLast (List.cons_ne_nil _ _)
          = ((t2, a2) :: rest).getLast (List.cons_ne_nil _ _) :=
        List.getLast_cons (List.cons_ne_nil _ _)
      rw [hlast]

theorem editorRun_edits_state {α : Type} (sid : Nat) (a0 : α) (es : List (ℚ × α))
    (hne : es ≠ []) (hchain : List.Chain' withinDebounce es) :
    (es.map fun e => EditorEvent.edit e.1 e.2).foldl editorStep
        { currentSnapshotId := some sid, ui := a0, pendingFire := none, writes := [] }
      = { currentSnapshotId := some sid, ui := (es.getLast hne).2
          pendingFire := some ((es.getLast hne).1 + 3/10), writes := [] } := by
  obtain ⟨⟨t, a⟩, rest, rfl⟩ := List.exists_cons_of_ne_nil hne
  rw [List.foldl_map]
  simp only [List.foldl_cons]
  have hstep0 : editorStep
      { currentSnapshotId := some sid, ui := a0, pendingFire := none, writes := [] }
      (EditorEvent.edit t a)
    = { currentSnapshotId := some sid, ui := a, pendingFire := some (t + 3/10)
        writes := [] } := by
    simp [editorStep, fireDue]
  rw [hstep0]
  exact editorRun_edits_aux sid t a [] rest hchain

/-- Claim C2: a nonempty run of debounced edits to the active snapshot,
each within 300 ms of the previous one, issues exactly one persisted
write: it happens 300 ms after the last edit and carries the panel state
left by that last edit — every earlier edit only cancelled and replaced
the pending timer. -/
theorem debounce_single_write {α : Type} (sid : Nat) (a0 : α) (es : List (ℚ × α))
    (hne : es ≠ []) (hchain : List.Chain' withinDebounce es) :
    (editorRun sid a0 (es.map fun e => EditorEvent.edit e.1 e.2)).writes
      = [((es.getLast hne).1 + 3/10, sid, (es.getLast hne).2)] := by
  unfold editorRun
  rw [editorRun_edits_state sid a0 es hne hchain]
  simp [editorFinalize, firePending]

/-- Closed witness for claim C2: two same-tick edits produce the single
write of the second edit's state, 300 ms later. -/
theorem debounce_single_write_witness :
    (editorRun 7 "" [EditorEvent.edit 0 "a", EditorEvent.edit 0 "b"]).writes
      = [((0:ℚ) + 3/10, 7, "b")] := by
  have h := debounce_single_write 7 "" [((0:ℚ), "a"), (0, "b")] (List.cons_ne_nil _ _)
    (List.chain'_cons.mpr ⟨⟨le_refl 0, by norm_num⟩, List.chain'_singleton _⟩)
  simpa using h

/-- Counterexample to claim C3: editing snapshot 1 at time 0 leaves a
debounced write pending; `exitInlineEditMode` at time 1/10 clears the
active snapshot id without flushing or cancelling the timer, and when the
timer fires at 3/10 the invalid-id guard of `saveInlineEdit` discards the
save. The session ends with no write at all: the buffered edit to
snapshot 1 was dropped, not flushed to the store before the exit
completed. -/
theorem exit_flush_counterexample :
    (editorRun 1 "init" [EditorEvent.edit 0 "edited", EditorEvent.exitEditing (1/10)]).writes
        = []
    ∧ (editorRun 1 "init"
        [EditorEvent.edit 0 "edited", EditorEvent.exitEditing (1/10)]).currentSnapshotId
        = none := by
  constructor <;>
    norm_num [editorRun, editorStep, fireDue, editorFinalize, firePending]

/-- Claim C3 amended: exiting inline editing does not flush the pending
debounced write — it only clears the active snapshot id, leaving the timer
running; if the exit happens before the timer deadline, the later firing
is discarded by the no-active-snapshot guard, so the whole session
persists nothing: the buffered edit to the previous snapshot is dropped,
and no write for it is ever issued after the exit either. -/
theorem exit_drops_pending {α : Type} (sid : Nat) (a0 : α) (es : List (ℚ × α)) (te : ℚ)
    (hne : es ≠ []) (hchain : List.Chain' withinDebounce es)
    (_hle : (es.getLast hne).1 ≤ te) (hlt : te - (es.getLast hne).1 < 3/10) :
    (editorRun sid a0
        ((es.map fun e => EditorEvent.edit e.1 e.2) ++ [EditorEvent.exitEditing te])).writes
        = []
    ∧ (editorRun sid a0
        ((es.map fun e => EditorEvent.edit e.1 e.2)
          ++ [EditorEvent.exitEditing te])).currentSnapshotId
        = none := by
  have hnotdue : ¬ ((es.getLast hne).1 + 3/10 ≤ te) := by
    simp only [not_le]
    linarith
  unfold editorRun
  rw [List.foldl_append, editorRun_edits_state sid a0 es hne hchain]
  constructor <;>
    simp [editorStep, fireDue, editorFinalize, firePending, hnotdue]

/-- Closed witness for the amended claim C3: one edit followed by an
immediate exit yields no persisted write and no active snapshot. -/
theorem exit_drops_pending_witness :
    (editorRun 3 "i" [EditorEvent.edit 0 "e", EditorEvent.exitEditing 0]).writes = []
    ∧ (editorRun 3 "i"
        [EditorEvent.edit 0 "e", EditorEvent.exitEditing 0]).currentSnapshotId = none := by
  have h := exit_drops_pending 3 "i" [((0:ℚ), "e")] 0 (List.cons_ne_nil _ _)
    (List.chain'_singleton _) (le_refl _) (by norm_num)
  simpa using h

/-- Closed witness for claim C10: deleting the only snapshot of a concrete
store rewrites exactly the owning project's `lastEditedAt` field. -/
theorem mutations_touch_project_witness :
    Storage.getProject (Storage.deleteSnapshot dbTol 1 9) 1
      = some { id := 1, name := "Demo", videoFileName := "v.mp4", videoData := "blob"
               createdAt := 0, lastEditedAt := 9 } :=
  mutations_touch_project.2.2 dbTol 1 9
    { id := 1, projectId := 1, timestamp := 0, originalImage := "i0"
      markedUpImage := none, fabricData := none, comment := ""
      tags := [], tagHours := [], createdAt := 0 }
    { id := 1, name := "Demo", videoFileName := "v.mp4", videoData := "blob"
      createdAt := 0, lastEditedAt := 0 }
    (by rfl) (by decide) (by rfl)

/-- Counterexample to claim C5: with the store unavailable, the flush of
an edit to snapshot 1 issues exactly one write attempt — there is no
retry (the claim requires a second attempt) — and the store is unchanged. -/
theorem persist_retry_counterexample :
    (SnapshotManager.saveInlineEdit dbTol false (some 1) [] "c" none none true 9).attempts = 1
    ∧ (SnapshotManager.saveInlineEdit dbTol false (some 1) [] "c" none none true 9).attempts
        ≠ 2
    ∧ (SnapshotManager.saveInlineEdit dbTol false (some 1) [] "c" none none true 9).db
        = dbTol := by
  refine ⟨rfl, by decide, rfl⟩

/-- Claim C5 amended: a persist attempt that fails because the store is
unavailable is not retried — exactly one write attempt is issued; the
failure surfaces as a non-fatal notification (through the global
unhandled-rejection handler) while the store and the panels are left
unchanged, so a subsequent flush issues the buffered write with the
collected panel fields. -/
theorem persist_failure_not_retried (db : DB) (id : Nat) (panel : List PanelEntry)
    (comment : String) (fu mu : Option (Option String)) (now now2 : ℚ) (s0 : Snapshot)
    (h : Storage.getSnapshot db id = some s0) :
    (SnapshotManager.saveInlineEdit db false (some id) panel comment fu mu true now).attempts
        = 1
    ∧ (SnapshotManager.saveInlineEdit db false (some id) panel comment fu mu true now).notified
        = true
    ∧ (SnapshotManager.saveInlineEdit db false (some id) panel comment fu mu true now).db = db
    ∧ (SnapshotManager.saveInlineEdit db false (some id) panel comment fu mu
        true now).panelsCleared = false
    ∧ (SnapshotManager.saveInlineEdit db true (some id) panel comment fu mu true now2).db
        = Storage.updateSnapshot db id
            (SnapshotManager.panelUpdates panel comment fu mu) now2 := by
  simp only [SnapshotManager.saveInlineEdit, h]
  exact ⟨rfl, rfl, rfl, rfl, rfl⟩

/-- Closed witness for the amended claim C5: on a concrete store the
failed flush leaves the database untouched and the follow-up flush with
the store back persists the buffered fields. -/
theorem persist_failure_not_retried_witness :
    (SnapshotManager.saveInlineEdit dbTol false (some 1) [] "c" none none true 8).db = dbTol
    ∧ (SnapshotManager.saveInlineEdit dbTol true (some 1) [] "c" none none true 9).db
        = Storage.updateSnapshot dbTol 1
            (SnapshotManager.panelUpdates [] "c" none none) 9 := by
  have h := persist_failure_not_retried dbTol 1 [] "c" none none 8 9
    { id := 1, projectId := 1, timestamp := 0, originalImage := "i0"
      markedUpImage := none, fabricData := none, comment := ""
      tags := [], tagHours := [], createdAt := 0 }
    (by rfl)
  exact ⟨h.2.2.1, h.2.2.2.2⟩

/-- Counterexample to claim C6: with a project loaded and the video
playing (`paused = false`), a frame-capture request is not rejected —
`captureSnapshotWithComment` pauses the video, captures, and persists a
new snapshot (id 2 here). -/
theorem capture_while_playing_counterexample :
    (SnapshotManager.captureSnapshotWithComment dbTol (some 1) false 2 "frame" "" [] []
        5).snapshotId = some 2
    ∧ (SnapshotManager.captureSnapshotWithComment dbTol (some 1) false 2 "frame" "" [] []
        5).pausedAfter = true
    ∧ (SnapshotManager.captureSnapshotWithComment dbTol (some 1) false 2 "frame" "" [] []
        5).db.snapshots.length = 2 := by
  refine ⟨rfl, rfl, ?_⟩
  show ((Storage.addSnapshot dbTol _ 5).1.snapshots).length = 2
  rw [addSnapshot_snapshots]
  rfl

/-- Claim C6 amended: a frame-capture request with no loaded media is
rejected with an error toast, leaving the store untouched and returning no
snapshot id; a request while the video is playing is not rejected — the
video is paused first and the capture proceeds, persisting one new
snapshot. -/
theorem capture_gating (db : DB) (paused : Bool) (t : ℚ) (frame comment : String)
    (tags : List String) (hours : List (String × ℚ)) (now : ℚ) (pid : Nat) :
    SnapshotManager.captureSnapshotWithComment db none paused t frame comment tags hours now
      = { db := db, pausedAfter := paused, toastShown := true, snapshotId := none }
    ∧ (SnapshotManager.captureSnapshotWithComment db (some pid) false t frame comment tags
        hours now).pausedAfter = true
    ∧ (SnapshotManager.captureSnapshotWithComment db (some pid) false t frame comment tags
        hours now).snapshotId = some db.nextSnapshotId
    ∧ (SnapshotManager.captureSnapshotWithComment db (some pid) false t frame comment tags
        hours now).db.snapshots.length = db.snapshots.length + 1 := by
  refine ⟨rfl, rfl, ?_, ?_⟩
  · show some (Storage.addSnapshot db _ now).2 = some db.nextSnapshotId
    rw [addSnapshot_id]
  · show ((Storage.addSnapshot db _ now).1.snapshots).length = db.snapshots.length + 1
    rw [addSnapshot_snapshots]
    simp

/-- Counterexample to claim C7: the tag-click creation path persists a
record whose `tagHours` holds a positive entry for "vfx" although "vfx" is
not in its `tags` array — the creation write boundary does not restrict
hour entries to active tags, so the subset invariant fails at creation. -/
theorem creation_tagHours_counterexample :
    (SnapshotManager.tagClickCreateSnapshot dbTol (some 1) true panelStray 2 "frame"
        5).db.snapshots
      = [{ id := 1, projectId := 1, timestamp := 0, originalImage := "i0"
           markedUpImage := none, fabricData := none, comment := ""
           tags := [], tagHours := [], createdAt := 0 },
         { id := 2, projectId := 1, timestamp := 2, originalImage := "frame"
           markedUpImage := none, fabricData := none, comment := ""
           tags := ["roto"], tagHours := [("vfx", 3)], createdAt := 5 }]
    ∧ "vfx" ∉ (["roto"] : List String) := by
  constructor
  · show ((Storage.addSnapshot dbTol _ 5).1.snapshots) = _
    rw [addSnapshot_snapshots]
    norm_num [dbTol, Storage.newSnapshotRecord, SnapshotManager.collectInitialTags,
      SnapshotManager.collectInitialTagHours, panelStray, jsSetDedup, List.filterMap]
  · decide

theorem mem_collectTagHours {panel : List PanelEntry} {tags : List String}
    {kv : String × ℚ} (h : kv ∈ SnapshotManager.collectTagHours panel tags) :
    kv.1 ∈ tags ∧ 0 < kv.2 := by
  unfold SnapshotManager.collectTagHours at h
  rcases List.mem_filterMap.mp h with ⟨e, _, hf⟩
  cases he : e.hours with
  | none => simp [he] at hf
  | some v =>
      simp only [he] at hf
      by_cases hc : e.tag ∈ tags ∧ 0 < v
      · rw [if_pos hc] at hf
        cases hf
        exact ⟨hc.1, hc.2⟩
      · rw [if_neg hc] at hf
        cases hf

theorem mem_collectInitialTagHours {panel : List PanelEntry} {kv : String × ℚ}
    (h : kv ∈ SnapshotManager.collectInitialTagHours panel) : 0 < kv.2 := by
  unfold SnapshotManager.collectInitialTagHours at h
  rcases List.mem_filterMap.mp h with ⟨e, _, hf⟩
  cases he : e.hours with
  | none => simp [he] at hf
  | some v =>
      simp only [he] at hf
      by_cases hc : 0 < v
      · rw [if_pos hc] at hf
        cases hf
        exact hc
      · rw [if_neg hc] at hf
        cases hf

theorem saveInlineEdit_db_of_available (db : DB) (id : Nat) (panel : List PanelEntry)
    (comment : String) (fu mu : Option (Option String)) (silent : Bool) (now : ℚ)
    (s0 : Snapshot) (h : Storage.getSnapshot db id = some s0) :
    (SnapshotManager.saveInlineEdit db true (some id) panel comment fu mu silent now).db
      = Storage.updateSnapshot db id (SnapshotManager.panelUpdates panel comment fu mu)
          now := by
  simp only [SnapshotManager.saveInlineEdit, h, if_true]

/-- Claim C7 amended: every record written through `saveInlineEdit`
satisfies the invariant — each persisted `tagHours` key is in the
persisted `tags` array and each value is positive; a record written at
snapshot creation still carries only positive hour values, but its hour
entries are collected from every hours input regardless of tag activity,
so the subset part does not hold at creation (see the counterexample). -/
theorem saveInlineEdit_tagHours_invariant :
    (∀ db id panel comment fu mu now s0 s,
        Storage.getSnapshot db id = some s0 →
        dbGetSnapshot
            (SnapshotManager.saveInlineEdit db true (some id) panel comment fu mu
              true now).db id
          = some s →
        ∀ kv ∈ s.tagHours, kv.1 ∈ s.tags ∧ 0 < kv.2)
    ∧ (∀ panel kv, kv ∈ SnapshotManager.collectInitialTagHours panel → 0 < kv.2) := by
  constructor
  · intro db id panel comment fu mu now s0 s hget hafter kv hkv
    rcases Option.map_eq_some'.mp hget with ⟨r0, hr0, _⟩
    rw [saveInlineEdit_db_of_available db id panel comment fu mu true now s0 hget,
      dbGetSnapshot_updateSnapshot db id _ now r0 hr0] at hafter
    cases hafter
    have hkv' : kv ∈ SnapshotManager.collectTagHours panel
        (SnapshotManager.collectActiveTags panel) := hkv
    have hp := mem_collectTagHours hkv'
    refine ⟨?_, hp.2⟩
    show kv.1 ∈ jsSetDedup (SnapshotManager.collectActiveTags panel)
    exact (mem_jsSetDedup _ _).mpr hp.1
  · intro panel kv h
    exact mem_collectInitialTagHours h

/-- Closed witness for the amended claim C7: flushing a panel whose only
active tag "vfx" has hours 3 writes a record whose single hour entry
belongs to the stored tag set and is positive. -/
theorem saveInlineEdit_tagHours_invariant_witness :
    ("vfx" ∈ ({ id := 1, projectId := 1, timestamp := 0, originalImage := "i0"
                markedUpImage := none, fabricData := none, comment := "c"
                tags := ["vfx"], tagHours := [("vfx", 3)], createdAt := 0 } : Snapshot).tags)
    ∧ (0:ℚ) < ("vfx", (3:ℚ)).2 :=
  saveInlineEdit_tagHours_invariant.1 dbTol 1
    [{ tag := "vfx", active := true, hours := some 3 }] "c" none none 9
    { id := 1, projectId := 1, timestamp := 0, originalImage := "i0"
      markedUpImage := none, fabricData := none, comment := ""
      tags := [], tagHours := [], createdAt := 0 }
    { id := 1, projectId := 1, timestamp := 0, originalImage := "i0"
      markedUpImage := none, fabricData := none, comment := "c"
      tags := ["vfx"], tagHours := [("vfx", 3)], createdAt := 0 }
    (by rfl) (by decide) ("vfx", 3) (by decide)

/-- Claim C8 (code bug): `resizeCanvas` serializes the scene, changes the
canvas dimensions, and reloads the serialized scene unchanged — contrary
to the source comment "objects will scale automatically", nothing is
rescaled. A shape whose center is at the horizontal center of an 800-wide
canvas (left 350 + width 100 / 2 = 400) still sits at absolute 400 after
the display shrinks to 400 wide, whose horizontal center is 200: the
relative position is not preserved. -/
theorem resize_no_rescale :
    (DrawingTool.resizeCanvas
        { width := 800, height := 600
          shapes := [{ left := 350, top := 250, width := 100, height := 100 }] }
        400 600).width = 400
    ∧ (DrawingTool.resizeCanvas
        { width := 800, height := 600
          shapes := [{ left := 350, top := 250, width := 100, height := 100 }] }
        400 600).shapes = [{ left := 350, top := 250, width := 100, height := 100 }]
    ∧ (350 : ℚ) + 100 / 2 = 800 / 2
    ∧ ¬ ((350 : ℚ) + 100 / 2 = 400 / 2) := by
  have hguard : (2:ℚ) < |(800:ℚ) - 400| ∨ (2:ℚ) < |(600:ℚ) - 600| := by
    left
    rw [show (800:ℚ) - 400 = 400 by norm_num, abs_of_pos (show (0:ℚ) < 400 by norm_num)]
    norm_num
  have hres : DrawingTool.resizeCanvas
      { width := 800, height := 600
        shapes := [{ left := 350, top := 250, width := 100, height := 100 }] } 400 600
    = { width := 400, height := 600
        shapes := [{ left := 350, top := 250, width := 100, height := 100 }] } := by
    unfold DrawingTool.resizeCanvas
    rw [if_pos hguard]
    rfl
  exact ⟨by rw [hres], by rw [hres], by norm_num, by norm_num⟩
